import Mathlib

/-!
Verification of the py-factom-did client library: a shallow embedding of the
DID document data model, the builder and updater operations, and the entry
codec, together with theorems settling the specification's claims.

The enum component is embedded from `src/client/enums.py`.  The remaining
components (document, updater, keys, entry codec) are not present under
`src/`; they are modelled from the specification (spec.md §3–§4.6), with the
randomness of key generation and nonce drawing externalised as parameters.
-/

namespace FactomDid

/-! ## Enums (embedded from src/client/enums.py) -/

/-- Signature scheme enum, from `src/client/enums.py` (`KeyType`). -/
inductive KeyType where
  | EdDSA
  | ECDSA
  | RSA
deriving DecidableEq, Repr

/-- The `value` of each `KeyType` member, from `src/client/enums.py`. -/
def KeyType.value : KeyType → String
  | .EdDSA => "Ed25519VerificationKey"
  | .ECDSA => "ECDSASecp256k1VerificationKey"
  | .RSA => "RSAVerificationKey"

/-- `KeyType.from_str` from `src/client/enums.py`: the if/elif chain;
raising `NotImplementedError` is modelled as `none`. -/
def KeyType.from_str (string : String) : Option KeyType :=
  if string = "Ed25519VerificationKey" then some KeyType.EdDSA
  else if string = "ECDSASecp256k1VerificationKey" then some KeyType.ECDSA
  else if string = "RSAVerificationKey" then some KeyType.RSA
  else none

/-- Entry type enum, from `src/client/enums.py` (`EntryType`). -/
inductive EntryType where
  | Create
  | Update
  | VersionUpgrade
  | Deactivation
deriving DecidableEq, Repr

/-- The `value` of each `EntryType` member, from `src/client/enums.py`. -/
def EntryType.value : EntryType → String
  | .Create => "DIDManagement"
  | .Update => "DIDUpdate"
  | .VersionUpgrade => "DIDMethodVersionUpgrade"
  | .Deactivation => "DIDDeactivation"

/-- DID key purpose enum, from `src/client/enums.py` (`DIDKeyPurpose`). -/
inductive DIDKeyPurpose where
  | PublicKey
  | AuthenticationKey
deriving DecidableEq, Repr

/-- The `value` of each `DIDKeyPurpose` member, from `src/client/enums.py`. -/
def DIDKeyPurpose.value : DIDKeyPurpose → String
  | .PublicKey => "publicKey"
  | .AuthenticationKey => "authentication"

/-- `DIDKeyPurpose.from_str` from `src/client/enums.py`; raising
`NotImplementedError` is modelled as `none`. -/
def DIDKeyPurpose.from_str (string : String) : Option DIDKeyPurpose :=
  if string = "publicKey" then some DIDKeyPurpose.PublicKey
  else if string = "authentication" then some DIDKeyPurpose.AuthenticationKey
  else none

/-! ## Canonical JSON (modelled from the spec §4.6 "Canonical JSON") -/

/-- A JSON value with insertion-ordered objects.
Modelled from the spec: §4.6 "Canonical JSON" (the entry codec of the
missing `client/did.py`). -/
inductive Json where
  | str : String → Json
  | nat : Nat → Json
  | arr : List Json → Json
  | obj : List (String × Json) → Json

/-- JSON string escaping per RFC 8259 for the characters that require it.
Modelled from the spec: §4.6 "strings JSON-escaped per RFC 8259". -/
def jsonEscapeChar (c : Char) : String :=
  if c = '"' then "\\\""
  else if c = '\\' then "\\\\"
  else String.singleton c

/-- Escape a whole string for inclusion in canonical JSON. -/
def jsonEscape (s : String) : String :=
  String.join (s.data.map jsonEscapeChar)

mutual

/-- Serialize a JSON value with no insignificant whitespace, keys in
insertion order.  Modelled from the spec: §4.6 "Canonical JSON". -/
def Json.ser : Json → String
  | .str s => "\"" ++ jsonEscape s ++ "\""
  | .nat n => Nat.repr n
  | .arr xs => "[" ++ Json.serList xs ++ "]"
  | .obj kvs => "\x7b" ++ Json.serObj kvs ++ "\x7d"

/-- Serialize a comma-separated list of JSON values. -/
def Json.serList : List Json → String
  | [] => ""
  | [x] => Json.ser x
  | x :: y :: rest => Json.ser x ++ "," ++ Json.serList (y :: rest)

/-- Serialize the comma-separated members of a JSON object. -/
def Json.serObj : List (String × Json) → String
  | [] => ""
  | [(k, v)] => "\"" ++ jsonEscape k ++ "\":" ++ Json.ser v
  | (k, v) :: x :: rest =>
      "\"" ++ jsonEscape k ++ "\":" ++ Json.ser v ++ "," ++ Json.serObj (x :: rest)

end

/-! ## Constants and validators (modelled from the spec §4.1, §6) -/

/-- Method name prefix (spec §6 Constants). -/
def DID_METHOD_NAME : String := "did:factom"

/-- Entry schema version (spec §6 Constants). -/
def ENTRY_SCHEMA_VERSION : String := "1.0.0"

/-- Method spec version (spec §6 Constants). -/
def DID_METHOD_SPEC_VERSION : String := "0.2.0"

/-- Entry size cap in bytes (spec §6 Constants). -/
def ENTRY_SIZE_CAP : Nat := 10240

/-- A character admissible in an alias: lowercase latin letter, digit or
hyphen (spec §3 "Alias"). -/
def aliasChar (c : Char) : Bool :=
  (97 ≤ c.toNat && c.toNat ≤ 122) || (48 ≤ c.toNat && c.toNat ≤ 57) || c = '-'

/-- Modelled from the spec: `valid_alias` of §4.1 (validators of the missing
client code): matches `^[a-z0-9-]+$`. -/
def valid_alias (s : String) : Bool :=
  !s.data.isEmpty && s.data.all aliasChar

/-- A lowercase hexadecimal character. -/
def hexChar (c : Char) : Bool :=
  (97 ≤ c.toNat && c.toNat ≤ 102) || (48 ≤ c.toNat && c.toNat ≤ 57)

/-- Modelled from the spec: `valid_did` of §4.1: matches
`^<method-name>:[a-f0-9]{64}$` exactly. -/
def valid_did (s : String) : Bool :=
  (DID_METHOD_NAME ++ ":").data.isPrefixOf s.data &&
    ((s.data.drop (DID_METHOD_NAME ++ ":").data.length).length == 64) &&
    (s.data.drop (DID_METHOD_NAME ++ ":").data.length).all hexChar

/-- Modelled from the spec: `valid_url` of §4.1: absolute URL with scheme
http/https and a non-empty host. -/
def valid_url (s : String) : Bool :=
  ("http://".data.isPrefixOf s.data && decide (7 < s.data.length)) ||
    ("https://".data.isPrefixOf s.data && decide (8 < s.data.length))

/-- The error kinds of spec §7, exhaustively. -/
inductive DidError where
  | validationError
  | keyFormat
  | keyMismatch
  | aliasInUse
  | unknownAlias
  | insufficientAuthority
  | noManagementKey
  | noTopPriorityKey
  | entryTooLarge
  | noPrivateKey
  | typeError
deriving DecidableEq, Repr

/-! ## Entities (modelled from the spec §3, §4.2, §4.3)

Key material generation is random and performed by the external crypto
provider; the generated wire-encoded public key and the raw private key
bytes are therefore taken as parameters of the construction operations. -/

/-- Modelled from the spec: `ManagementKey` of §3 (missing `client/keys.py`):
an AbstractKey plus a required priority.  `public_key` holds the
wire-encoded public key (base58 or PEM by scheme); `private_key` the raw
private-key bytes when present. -/
structure ManagementKey where
  alias_ : String
  priority : Nat
  key_type : KeyType
  controller : String
  public_key : String
  private_key : Option (List Nat)
deriving DecidableEq, Repr

/-- Modelled from the spec: `DIDKey` of §3: an AbstractKey plus a purpose
set (kept in insertion order) and an optional priority requirement. -/
structure DIDKey where
  alias_ : String
  purpose : List DIDKeyPurpose
  key_type : KeyType
  controller : String
  public_key : String
  priority_requirement : Option Nat
deriving DecidableEq, Repr

/-- Modelled from the spec: `Service` of §3 / §4.3. -/
structure Service where
  alias_ : String
  service_type : String
  endpoint : String
  priority_requirement : Option Nat
deriving DecidableEq, Repr

/-- Modelled from the spec: `Document` of §3: nonce (64 hex chars) plus the
three ordered element lists.  The id is derived as
`<method-name>:<nonce-hex>`. -/
structure Document where
  nonce : String
  management_keys : List ManagementKey
  did_keys : List DIDKey
  services : List Service
deriving DecidableEq, Repr

/-- The DID string of a document (spec §3 invariant 1). -/
def Document.id (d : Document) : String :=
  DID_METHOD_NAME ++ ":" ++ d.nonce

/-- A freshly created document: empty element lists (spec §3 Lifecycle),
with the randomly drawn nonce as a parameter. -/
def emptyDocument (nonce : String) : Document :=
  { nonce := nonce, management_keys := [], did_keys := [], services := [] }

/-- All aliases of a document, across the three element kinds, in order
(spec §3: "a single namespace"). -/
def Document.allAliases (d : Document) : List String :=
  d.management_keys.map ManagementKey.alias_ ++ d.did_keys.map DIDKey.alias_ ++
    d.services.map Service.alias_

/-- Modelled from the spec: §4.4 `add_management_key`.  Validation first
(§4.2 order of checks), then the alias-in-use check (§4.4); on success the
key is appended to its list.  The generated key material is the
`public_key`/`private_key` pair of the argument. -/
def Document.add_management_key (d : Document) (k : ManagementKey) :
    Except DidError Document :=
  if !valid_alias k.alias_ then .error .validationError
  else if !valid_did k.controller then .error .validationError
  else if d.allAliases.contains k.alias_ then .error .aliasInUse
  else .ok { d with management_keys := d.management_keys ++ [k] }

/-- Modelled from the spec: §4.4 `add_did_key`: purpose must be non-empty
with no duplicates (§3 "Key purpose"); otherwise as for management keys. -/
def Document.add_did_key (d : Document) (k : DIDKey) :
    Except DidError Document :=
  if !valid_alias k.alias_ then .error .validationError
  else if !valid_did k.controller then .error .validationError
  else if k.purpose.isEmpty || !(decide k.purpose.Nodup) then .error .validationError
  else if d.allAliases.contains k.alias_ then .error .aliasInUse
  else .ok { d with did_keys := d.did_keys ++ [k] }

/-- Modelled from the spec: §4.4 `add_service`: alias shape, non-empty
service type, URL shape (§4.3); then the alias-in-use check. -/
def Document.add_service (d : Document) (s : Service) :
    Except DidError Document :=
  if !valid_alias s.alias_ then .error .validationError
  else if s.service_type.data.isEmpty then .error .validationError
  else if !valid_url s.endpoint then .error .validationError
  else if d.allAliases.contains s.alias_ then .error .aliasInUse
  else .ok { d with services := d.services ++ [s] }

/-! ## Entry codec (modelled from the spec §4.2 serialization and §4.6) -/

/-- The JSON field holding the wire-encoded public key, by scheme
(spec §3: base58 for EdDSA and ECDSA, PEM for RSA). -/
def pubKeyField (t : KeyType) : String :=
  match t with
  | .RSA => "publicKeyPem"
  | _ => "publicKeyBase58"

/-- An optional `priorityRequirement`-style member: omitted when unset,
not emitted as null (spec §4.2). -/
def optNatField (name : String) (v : Option Nat) : List (String × Json) :=
  match v with
  | none => []
  | some n => [(name, Json.nat n)]

/-- Modelled from the spec: §4.2 document-fragment serialization of a
management key: `id`, `type`, `controller`, the public-key field, then
`priority`. -/
def mgmtKeyToJson (did : String) (k : ManagementKey) : Json :=
  Json.obj [("id", Json.str (did ++ "#" ++ k.alias_)),
    ("type", Json.str k.key_type.value),
    ("controller", Json.str k.controller),
    (pubKeyField k.key_type, Json.str k.public_key),
    ("priority", Json.nat k.priority)]

/-- Modelled from the spec: §4.2 serialization of a DID key: as above but
with `purpose` (insertion order) and optional `priorityRequirement`. -/
def didKeyToJson (did : String) (k : DIDKey) : Json :=
  Json.obj ([("id", Json.str (did ++ "#" ++ k.alias_)),
    ("type", Json.str k.key_type.value),
    ("controller", Json.str k.controller),
    (pubKeyField k.key_type, Json.str k.public_key),
    ("purpose", Json.arr (k.purpose.map (fun p => Json.str p.value)))] ++
    optNatField "priorityRequirement" k.priority_requirement)

/-- Modelled from the spec: §4.3 serialization of a service:
`{id, type, serviceEndpoint, priorityRequirement?}`. -/
def serviceToJson (did : String) (s : Service) : Json :=
  Json.obj ([("id", Json.str (did ++ "#" ++ s.alias_)),
    ("type", Json.str s.service_type),
    ("serviceEndpoint", Json.str s.endpoint)] ++
    optNatField "priorityRequirement" s.priority_requirement)

/-- A chain entry: external ids plus content, both byte strings
(spec §4.6). -/
structure Entry where
  ext_ids : List String
  content : String
deriving DecidableEq, Repr

/-- Total byte length of an entry: sum of ext-id lengths plus content
length (spec §4.6 "Size guard"). -/
def entrySize (extIds : List String) (content : String) : Nat :=
  (extIds.map String.length).sum + content.length

/-- Modelled from the spec: the create-entry content JSON of §4.6: fields
`didMethodVersion`, `managementKey`, then `didKey` and `service`, each of
the latter two omitted if empty. -/
def Document.createContentJson (d : Document) : Json :=
  Json.obj ([("didMethodVersion", Json.str DID_METHOD_SPEC_VERSION),
    ("managementKey", Json.arr (d.management_keys.map (mgmtKeyToJson d.id)))] ++
    (if d.did_keys.isEmpty then []
      else [("didKey", Json.arr (d.did_keys.map (didKeyToJson d.id)))]) ++
    (if d.services.isEmpty then []
      else [("service", Json.arr (d.services.map (serviceToJson d.id)))]))

/-- Modelled from the spec: §4.4/§4.6 `Document.export_entry_data` for the
create entry.  Pre-conditions in the order of §4.6: at least one management
key, at least one priority-0 management key, size within cap. -/
def Document.export_entry_data (d : Document) : Except DidError Entry :=
  if d.management_keys.isEmpty then .error .noManagementKey
  else if d.management_keys.all (fun k => k.priority != 0) then .error .noTopPriorityKey
  else
    let content := (d.createContentJson).ser
    let extIds := [EntryType.Create.value, ENTRY_SCHEMA_VERSION, d.nonce]
    if ENTRY_SIZE_CAP < entrySize extIds content then .error .entryTooLarge
    else .ok { ext_ids := extIds, content := content }

/-! ## Crypto provider (modelled from the spec §6) -/

/-- Modelled from the spec: the external crypto provider interface of §6,
per scheme: derive a wire-encoded public key from private-key bytes, sign
message bytes, verify a signature against a wire-encoded public key. -/
structure CryptoProvider where
  derive_public : KeyType → List Nat → String
  sign : KeyType → List Nat → List Nat → List Nat
  verify : KeyType → String → List Nat → List Nat → Bool

/-- The UTF-8-style byte view of a string (all strings in entries are
built from single-byte characters). -/
def strBytes (s : String) : List Nat :=
  s.data.map Char.toNat

/-- Raw bytes viewed as a byte string (for signature ext-ids). -/
def bytesToStr (bs : List Nat) : String :=
  String.mk (bs.map Char.ofNat)

/-! ## Updater (modelled from the spec §4.5)

The revocation accumulators record each revoked alias together with the
authorization datum the spec derives from it (the revoked management key's
priority, or the revoked DID key's / service's priority requirement),
captured at revocation time from the working document. -/

/-- Modelled from the spec: the `Updater` state of §4.5: working document,
the original's management-key list, and the addition and revocation
accumulators in insertion order. -/
structure Updater where
  doc : Document
  existing_management : List ManagementKey
  added_management : List ManagementKey
  added_did : List DIDKey
  added_service : List Service
  revoked_management : List (String × Nat)
  revoked_did : List (String × Option Nat)
  revoked_service : List (String × Option Nat)
deriving DecidableEq, Repr

/-- Modelled from the spec: §4.4 `Document.update`: fails
*no-management-key* on a document with zero management keys, otherwise
yields a fresh updater over a working copy. -/
def Document.update (d : Document) : Except DidError Updater :=
  if d.management_keys.isEmpty then .error .noManagementKey
  else .ok { doc := d, existing_management := d.management_keys,
             added_management := [], added_did := [], added_service := [],
             revoked_management := [], revoked_did := [], revoked_service := [] }

/-- Modelled from the spec: §4.5 `add_management_key`: as §4.4 but applied
to the working document and recorded in the additions accumulator. -/
def Updater.add_management_key (u : Updater) (k : ManagementKey) :
    Except DidError Updater :=
  match u.doc.add_management_key k with
  | .error e => .error e
  | .ok d => .ok { u with doc := d, added_management := u.added_management ++ [k] }

/-- Modelled from the spec: §4.5 `add_did_key`. -/
def Updater.add_did_key (u : Updater) (k : DIDKey) : Except DidError Updater :=
  match u.doc.add_did_key k with
  | .error e => .error e
  | .ok d => .ok { u with doc := d, added_did := u.added_did ++ [k] }

/-- Modelled from the spec: §4.5 `add_service`. -/
def Updater.add_service (u : Updater) (s : Service) : Except DidError Updater :=
  match u.doc.add_service s with
  | .error e => .error e
  | .ok d => .ok { u with doc := d, added_service := u.added_service ++ [s] }

/-- Modelled from the spec: §4.5 `revoke_management_key`.  Aliases are
normalized to lowercase at validation time (§9), so stored aliases are
lowercase and matching is by string equality; a missing alias fails
*unknown-alias*.  On match the key is removed from the working document;
an alias added earlier in the same updater is removed from the additions
and not recorded as a revocation. -/
def Updater.revoke_management_key (u : Updater) (a : String) :
    Except DidError Updater :=
  match u.doc.management_keys.find? (fun k => k.alias_ == a) with
  | none => .error .unknownAlias
  | some k =>
      let d := { u.doc with
        management_keys := u.doc.management_keys.filter (fun j => j.alias_ != a) }
      if u.added_management.any (fun j => j.alias_ == a) then
        .ok { u with
              doc := d,
              added_management := u.added_management.filter (fun j => j.alias_ != a) }
      else
        .ok { u with
              doc := d,
              revoked_management := u.revoked_management ++ [(a, k.priority)] }

/-- Modelled from the spec: §4.5 `revoke_did_key` (same discipline as for
management keys; the revoked key's priority requirement is recorded for
the authorization model). -/
def Updater.revoke_did_key (u : Updater) (a : String) : Except DidError Updater :=
  match u.doc.did_keys.find? (fun k => k.alias_ == a) with
  | none => .error .unknownAlias
  | some k =>
      let d := { u.doc with
        did_keys := u.doc.did_keys.filter (fun j => j.alias_ != a) }
      if u.added_did.any (fun j => j.alias_ == a) then
        .ok { u with
              doc := d,
              added_did := u.added_did.filter (fun j => j.alias_ != a) }
      else
        .ok { u with
              doc := d,
              revoked_did := u.revoked_did ++ [(a, k.priority_requirement)] }

/-- Modelled from the spec: §4.5 `revoke_service`. -/
def Updater.revoke_service (u : Updater) (a : String) : Except DidError Updater :=
  match u.doc.services.find? (fun s => s.alias_ == a) with
  | none => .error .unknownAlias
  | some s =>
      let d := { u.doc with
        services := u.doc.services.filter (fun j => j.alias_ != a) }
      if u.added_service.any (fun j => j.alias_ == a) then
        .ok { u with
              doc := d,
              added_service := u.added_service.filter (fun j => j.alias_ != a) }
      else
        .ok { u with
              doc := d,
              revoked_service := u.revoked_service ++ [(a, s.priority_requirement)] }

/-- Modelled from the spec: §4.5 `get_updated`: the working document. -/
def Updater.get_updated (u : Updater) : Document :=
  u.doc

/-- Whether the updater has recorded any net additions or revocations. -/
def Updater.hasChangesB (u : Updater) : Bool :=
  !(u.added_management.isEmpty && u.added_did.isEmpty && u.added_service.isEmpty &&
    u.revoked_management.isEmpty && u.revoked_did.isEmpty && u.revoked_service.isEmpty)

/-- The numeric authorization constraints induced by the changes
(spec §4.5 authorization model): the priority of each added or revoked
management key, and the priority requirement (when set) of each revoked
DID key or service. -/
def Updater.constraintValues (u : Updater) : List Nat :=
  u.added_management.map ManagementKey.priority ++
    u.revoked_management.map Prod.snd ++
    u.revoked_did.filterMap Prod.snd ++
    u.revoked_service.filterMap Prod.snd

/-- Minimum of a list of naturals, `none` on the empty list. -/
def minList : List Nat → Option Nat
  | [] => none
  | a :: rest =>
      match minList rest with
      | none => some a
      | some b => some (min a b)

/-- Whether a priority value satisfies the signing threshold (`none` means
no constraint was induced). -/
def withinThr (thr : Option Nat) (p : Nat) : Bool :=
  match thr with
  | none => true
  | some t => decide (p ≤ t)

/-- Keep the better of the current candidate and a later one: a later
candidate wins only with a strictly smaller priority (so that ties go to
the earlier position). -/
def pickBetter (thr : Option Nat) (k : ManagementKey) :
    Option ManagementKey → Option ManagementKey
  | none => if withinThr thr k.priority then some k else none
  | some b =>
      if withinThr thr k.priority then
        if b.priority < k.priority then some b else some k
      else some b

/-- Modelled from the spec: §4.5 signer selection: the management key with
the smallest priority value satisfying the threshold, ties broken by
position in the list (first wins). -/
def selectSigner (thr : Option Nat) : List ManagementKey → Option ManagementKey
  | [] => none
  | k :: ks => pickBetter thr k (selectSigner thr ks)

/-- A revocation element of the update-entry content: `{"id": "<alias>"}`
(spec §4.6, bare alias). -/
def revokeElemJson (a : String) : Json :=
  Json.obj [("id", Json.str a)]

/-- Modelled from the spec: the update-entry content JSON of §4.6: at most
the two top-level keys `add` and `revoke`, each present only if non-empty,
each with sub-keys `managementKey`, `didKey`, `service` present only if
their lists are non-empty. -/
def Updater.updateContentJson (u : Updater) : Json :=
  let addObj : List (String × Json) :=
    (if u.added_management.isEmpty then []
      else [("managementKey", Json.arr (u.added_management.map (mgmtKeyToJson u.doc.id)))]) ++
    (if u.added_did.isEmpty then []
      else [("didKey", Json.arr (u.added_did.map (didKeyToJson u.doc.id)))]) ++
    (if u.added_service.isEmpty then []
      else [("service", Json.arr (u.added_service.map (serviceToJson u.doc.id)))])
  let revokeObj : List (String × Json) :=
    (if u.revoked_management.isEmpty then []
      else [("managementKey", Json.arr (u.revoked_management.map (fun r => revokeElemJson r.1)))]) ++
    (if u.revoked_did.isEmpty then []
      else [("didKey", Json.arr (u.revoked_did.map (fun r => revokeElemJson r.1)))]) ++
    (if u.revoked_service.isEmpty then []
      else [("service", Json.arr (u.revoked_service.map (fun r => revokeElemJson r.1)))])
  Json.obj ((if addObj.isEmpty then [] else [("add", Json.obj addObj)]) ++
    (if revokeObj.isEmpty then [] else [("revoke", Json.obj revokeObj)]))

/-- Modelled from the spec: §4.5/§4.6 `Updater.export_entry_data`: nothing
if there are no changes; *insufficient-authority* if no original management
key satisfies the constraints (§4.5 authorization model); then the export
invariants of §4.5 (working document non-empty, priority-0 key surviving);
then the signed update entry with its size guard. -/
def Updater.export_entry_data (u : Updater) (prov : CryptoProvider) :
    Except DidError (Option Entry) :=
  if !u.hasChangesB then .ok none
  else
    match selectSigner (minList u.constraintValues) u.existing_management with
    | none => .error .insufficientAuthority
    | some k =>
        if u.doc.management_keys.isEmpty then .error .noManagementKey
        else if u.revoked_management.any (fun r => r.2 == 0) &&
            !(u.doc.management_keys.any (fun j => j.priority == 0)) then
          .error .noTopPriorityKey
        else
          match k.private_key with
          | none => .error .noPrivateKey
          | some sk =>
              let content := (u.updateContentJson).ser
              let e2 := u.doc.id ++ "#" ++ k.alias_
              let sig := bytesToStr (prov.sign k.key_type sk
                (strBytes (EntryType.Update.value ++ ENTRY_SCHEMA_VERSION ++ e2 ++ content)))
              let extIds := [EntryType.Update.value, ENTRY_SCHEMA_VERSION, e2, sig]
              if ENTRY_SIZE_CAP < entrySize extIds content then .error .entryTooLarge
              else .ok (some { ext_ids := extIds, content := content })

/-! ## Key entities: construction, signing, equality (modelled from §4.2) -/

/-- Modelled from the spec: `AbstractKey` of §3/§4.2 (the `AbstractDIDKey`
of the missing `client/keys.py`): alias, scheme, controller, optional
priority requirement, wire-encoded public key, optional private-key
bytes. -/
structure AbstractDIDKey where
  alias_ : String
  key_type : KeyType
  controller : String
  priority_requirement : Option Nat
  public_key : String
  private_key : Option (List Nat)
deriving DecidableEq, Repr

/-- Modelled from the spec: §4.2 construction with only a private key
supplied: the public key is derived from it by the crypto provider. -/
def mkKeyFromPrivate (prov : CryptoProvider) (a : String) (t : KeyType)
    (ctrl : String) (pr : Option Nat) (sk : List Nat) : AbstractDIDKey :=
  { alias_ := a, key_type := t, controller := ctrl, priority_requirement := pr,
    public_key := prov.derive_public t sk, private_key := some sk }

/-- Modelled from the spec: §4.2 `sign`: requires a private key, otherwise
fails *no-private-key* (byte-buffer typing is enforced by the embedding's
types, so *type-error* cannot arise here). -/
def AbstractDIDKey.sign (k : AbstractDIDKey) (prov : CryptoProvider)
    (m : List Nat) : Except DidError (List Nat) :=
  match k.private_key with
  | none => .error .noPrivateKey
  | some sk => .ok (prov.sign k.key_type sk m)

/-- Modelled from the spec: §4.2 `verify`: delegate to the provider with
the key's wire-encoded public key. -/
def AbstractDIDKey.verify (k : AbstractDIDKey) (prov : CryptoProvider)
    (m sig : List Nat) : Bool :=
  prov.verify k.key_type k.public_key m sig

/-- Soundness of a crypto provider, as required by spec §6: a signature
verifies against the derived public key, and verifies only for the signed
message. -/
def ProviderSound (p : CryptoProvider) : Prop :=
  ∀ (t : KeyType) (sk m m' : List Nat),
    p.verify t (p.derive_public t sk) m (p.sign t sk m) = true ∧
      (m' ≠ m → p.verify t (p.derive_public t sk) m' (p.sign t sk m) = false)

/-- An idealised provider used to exhibit that `ProviderSound` is
satisfiable: signatures are the signed message itself. -/
def idealProvider : CryptoProvider :=
  { derive_public := fun _ _ => "",
    sign := fun _ _ m => m,
    verify := fun _ _ m s => s == m }

theorem idealProvider_sound : ProviderSound idealProvider := by
  intro t sk m m'
  constructor
  · simp [idealProvider]
  · intro h
    simp [idealProvider]
    exact fun hc => h hc.symm

/-- The outcome of the rich comparison of two key instances
(spec §4.2 "Equality"): equal, unequal, or *not-comparable*
(Python's `NotImplemented`). -/
inductive EqResult where
  | isEq
  | isNe
  | notImplemented
deriving DecidableEq, Repr

/-- A key instance as a comparison participant: either a plain
`AbstractDIDKey` or a `ManagementKey` (the abstract data plus its
priority). -/
inductive KeyInst where
  | abstract : AbstractDIDKey → KeyInst
  | management : AbstractDIDKey → Nat → KeyInst
deriving DecidableEq, Repr

/-- The five fields that determine AbstractKey equality per spec §4.2:
alias, scheme, controller, priority requirement, public-key bytes. -/
def fieldsEqB (a b : AbstractDIDKey) : Bool :=
  a.alias_ == b.alias_ && a.key_type == b.key_type && a.controller == b.controller &&
    a.priority_requirement == b.priority_requirement && a.public_key == b.public_key

/-- Modelled from the spec: §4.2 "Equality": same-class instances compare
by the five fields; a management key compared with a non-management key
yields *not-comparable*. -/
def keyEq : KeyInst → KeyInst → EqResult
  | .abstract a, .abstract b => if fieldsEqB a b then .isEq else .isNe
  | .management a _, .management b _ => if fieldsEqB a b then .isEq else .isNe
  | _, _ => .notImplemented

theorem fieldsEqB_iff (a b : AbstractDIDKey) :
    fieldsEqB a b = true ↔
      (a.alias_ = b.alias_ ∧ a.key_type = b.key_type ∧ a.controller = b.controller ∧
        a.priority_requirement = b.priority_requirement ∧ a.public_key = b.public_key) := by
  simp [fieldsEqB, and_assoc]

theorem ite_isEq (c : Bool) :
    (if c then EqResult.isEq else EqResult.isNe) = EqResult.isEq ↔ c = true := by
  cases c <;> simp

/-- C7: for every pair of AbstractKey instances, equality holds iff alias,
scheme, controller, priority requirement and public-key bytes are all
equal; a management key compared with a non-management key of any contents
yields *not-comparable* (`NotImplemented`), in both orders. -/
theorem key_equality_spec :
    (∀ a b : AbstractDIDKey,
      keyEq (.abstract a) (.abstract b) = .isEq ↔
        (a.alias_ = b.alias_ ∧ a.key_type = b.key_type ∧ a.controller = b.controller ∧
          a.priority_requirement = b.priority_requirement ∧ a.public_key = b.public_key)) ∧
    (∀ (a b : AbstractDIDKey) (p q : Nat),
      keyEq (.management a p) (.management b q) = .isEq ↔
        (a.alias_ = b.alias_ ∧ a.key_type = b.key_type ∧ a.controller = b.controller ∧
          a.priority_requirement = b.priority_requirement ∧ a.public_key = b.public_key)) ∧
    (∀ (a b : AbstractDIDKey) (p : Nat),
      keyEq (.abstract a) (.management b p) = .notImplemented ∧
        keyEq (.management b p) (.abstract a) = .notImplemented) := by
  refine ⟨fun a b => ?_, fun a b p q => ?_, fun a b p => ⟨rfl, rfl⟩⟩ <;>
    exact (ite_isEq (fieldsEqB a b)).trans (fieldsEqB_iff a b)

/-- C6: for every key holding a private key and every non-empty byte
string m, signing succeeds and the signature verifies for m and fails to
verify for any m' ≠ m, for each of the EdDSA, ECDSA and RSA schemes,
provided the crypto provider meets the soundness contract of spec §6. -/
theorem key_sign_verify_correct :
    ∀ (prov : CryptoProvider), ProviderSound prov →
      ∀ (t : KeyType) (a ctrl : String) (pr : Option Nat) (sk m m' : List Nat),
        m ≠ [] →
        ∃ sig, (mkKeyFromPrivate prov a t ctrl pr sk).sign prov m = .ok sig ∧
          (mkKeyFromPrivate prov a t ctrl pr sk).verify prov m sig = true ∧
          (m' ≠ m → (mkKeyFromPrivate prov a t ctrl pr sk).verify prov m' sig = false) := by
  intro prov hs t a ctrl pr sk m m' _
  refine ⟨prov.sign t sk m, rfl, ?_, ?_⟩
  · exact (hs t sk m m').1
  · exact (hs t sk m m').2

/-- Witness for C6 at the ideal provider and concrete inputs. -/
theorem key_sign_verify_correct_witness :
    ∃ sig, (mkKeyFromPrivate idealProvider "k" KeyType.EdDSA "c" none [1, 2]).sign
        idealProvider [7, 8] = .ok sig ∧
      (mkKeyFromPrivate idealProvider "k" KeyType.EdDSA "c" none [1, 2]).verify
        idealProvider [7, 8] sig = true ∧
      ([9] ≠ [7, 8] → (mkKeyFromPrivate idealProvider "k" KeyType.EdDSA "c" none
        [1, 2]).verify idealProvider [9] sig = false) :=
  key_sign_verify_correct idealProvider idealProvider_sound KeyType.EdDSA "k" "c"
    none [1, 2] [7, 8] [9] (by decide)

/-- C10: `from_str` is a left inverse of the wire-name mapping for
`KeyType` and `DIDKeyPurpose`, and yields `none` (the model of the raised
`NotImplementedError`) exactly on strings that are no member's value. -/
theorem from_str_left_inverse :
    (∀ k : KeyType, KeyType.from_str k.value = some k) ∧
    (∀ p : DIDKeyPurpose, DIDKeyPurpose.from_str p.value = some p) ∧
    (∀ s : String, (∀ k : KeyType, s ≠ k.value) → KeyType.from_str s = none) ∧
    (∀ s : String, (∀ p : DIDKeyPurpose, s ≠ p.value) → DIDKeyPurpose.from_str s = none) := by
  refine ⟨fun k => ?_, fun p => ?_, fun s h => ?_, fun s h => ?_⟩
  · cases k <;> rfl
  · cases p <;> rfl
  · have h1 : s ≠ "Ed25519VerificationKey" := h KeyType.EdDSA
    have h2 : s ≠ "ECDSASecp256k1VerificationKey" := h KeyType.ECDSA
    have h3 : s ≠ "RSAVerificationKey" := h KeyType.RSA
    rw [KeyType.from_str, if_neg h1, if_neg h2, if_neg h3]
  · have h1 : s ≠ "publicKey" := h DIDKeyPurpose.PublicKey
    have h2 : s ≠ "authentication" := h DIDKeyPurpose.AuthenticationKey
    rw [DIDKeyPurpose.from_str, if_neg h1, if_neg h2]

/-- Witness for C10 at concrete strings. -/
theorem from_str_left_inverse_witness :
    KeyType.from_str "Ed25519VerificationKey" = some KeyType.EdDSA ∧
      KeyType.from_str "not-a-key" = none ∧
      DIDKeyPurpose.from_str "not-a-purpose" = none :=
  ⟨from_str_left_inverse.1 KeyType.EdDSA,
    from_str_left_inverse.2.2.1 "not-a-key" (fun k => by cases k <;> decide),
    from_str_left_inverse.2.2.2 "not-a-purpose" (fun p => by cases p <;> decide)⟩

/-! ## Concrete fixtures used by witnesses -/

/-- A concrete 64-hex-character nonce. -/
def sampleNonce : String :=
  "aaaaaaaaaaaaaaaaaaaaaaaaaaaaaaaaaaaaaaaaaaaaaaaaaaaaaaaaaaaaaaaa"

/-- The DID controller string over `sampleNonce`. -/
def sampleController : String :=
  DID_METHOD_NAME ++ ":" ++ sampleNonce

/-- A concrete management key at a given alias and priority. -/
def sampleMgmtKey (a : String) (p : Nat) : ManagementKey :=
  { alias_ := a, priority := p, key_type := .EdDSA, controller := sampleController,
    public_key := "4SoGEqAsBvDJZgVyLLY1J9uxCjXFHSY9qhyJJKPHkPsT", private_key := some [1, 2, 3] }

/-- A concrete service with a given alias and priority requirement. -/
def sampleService (a : String) (pr : Option Nat) : Service :=
  { alias_ := a, service_type := "email-service", endpoint := "https://gmail.com",
    priority_requirement := pr }

/-- A fresh updater (empty accumulators) over a given document. -/
def freshUpdater (d : Document) : Updater :=
  { doc := d, existing_management := d.management_keys,
    added_management := [], added_did := [], added_service := [],
    revoked_management := [], revoked_did := [], revoked_service := [] }

/-- A document with one priority-0 management key and one gmail service. -/
def gmailDoc : Document :=
  { nonce := sampleNonce, management_keys := [sampleMgmtKey "man-key1" 0],
    did_keys := [], services := [sampleService "gmail-service" (some 2)] }

/-! ## C2, C5, C8 -/

/-- C2: serializing a create entry fails *no-management-key* on zero
management keys and *no-top-priority-key* when none has priority 0; in
particular a freshly created empty document fails *no-management-key*. -/
theorem create_export_preconditions :
    (∀ d : Document, d.management_keys = [] →
      d.export_entry_data = .error .noManagementKey) ∧
    (∀ d : Document, d.management_keys ≠ [] →
      (∀ k ∈ d.management_keys, k.priority ≠ 0) →
      d.export_entry_data = .error .noTopPriorityKey) ∧
    (∀ nonce : String, (emptyDocument nonce).export_entry_data = .error .noManagementKey) := by
  refine ⟨fun d h => ?_, fun d h hall => ?_, fun nonce => rfl⟩
  · simp [Document.export_entry_data, h]
  · have h1 : d.management_keys.isEmpty = false := by
      cases hk : d.management_keys with
      | nil => exact absurd hk h
      | cons a l => rfl
    have h2 : d.management_keys.all (fun k => k.priority != 0) = true := by
      rw [List.all_eq_true]
      intro k hk
      simpa using hall k hk
    simp [Document.export_entry_data, h1, h2]

/-- Witness for C2 at concrete documents. -/
theorem create_export_preconditions_witness :
    (emptyDocument sampleNonce).export_entry_data = .error .noManagementKey ∧
      ({ nonce := sampleNonce, management_keys := [sampleMgmtKey "man-key1" 2],
         did_keys := [], services := [] } : Document).export_entry_data =
        .error .noTopPriorityKey :=
  ⟨create_export_preconditions.2.2 sampleNonce,
    create_export_preconditions.2.1 _ (by simp)
      (by intro k hk; simp only [List.mem_singleton] at hk; subst hk; decide)⟩

/-- C5: each of the three revocation operations fails *unknown-alias*
whenever the given alias does not match an element of the working
document's corresponding list; in particular, with aliases normalized to
lowercase, revoking `"Gmail-service"` when only `"gmail-service"` exists
fails *unknown-alias* rather than succeeding or being a no-op. -/
theorem revoke_unknown_alias :
    (∀ (u : Updater) (s : String), (∀ k ∈ u.doc.management_keys, k.alias_ ≠ s) →
      u.revoke_management_key s = .error .unknownAlias) ∧
    (∀ (u : Updater) (s : String), (∀ k ∈ u.doc.did_keys, k.alias_ ≠ s) →
      u.revoke_did_key s = .error .unknownAlias) ∧
    (∀ (u : Updater) (s : String), (∀ k ∈ u.doc.services, k.alias_ ≠ s) →
      u.revoke_service s = .error .unknownAlias) ∧
    (freshUpdater gmailDoc).revoke_service "Gmail-service" = .error .unknownAlias := by
  refine ⟨fun u s h => ?_, fun u s h => ?_, fun u s h => ?_, rfl⟩
  · have hf : u.doc.management_keys.find? (fun k => k.alias_ == s) = none := by
      rw [List.find?_eq_none]
      intro k hk
      simpa using h k hk
    rw [Updater.revoke_management_key, hf]
  · have hf : u.doc.did_keys.find? (fun k => k.alias_ == s) = none := by
      rw [List.find?_eq_none]
      intro k hk
      simpa using h k hk
    rw [Updater.revoke_did_key, hf]
  · have hf : u.doc.services.find? (fun k => k.alias_ == s) = none := by
      rw [List.find?_eq_none]
      intro k hk
      simpa using h k hk
    rw [Updater.revoke_service, hf]

/-- Witness for C5 at a concrete updater and alias. -/
theorem revoke_unknown_alias_witness :
    (freshUpdater gmailDoc).revoke_management_key "man-key9" = .error .unknownAlias :=
  revoke_unknown_alias.1 (freshUpdater gmailDoc) "man-key9"
    (by intro k hk; simp only [freshUpdater, gmailDoc, List.mem_singleton] at hk; subst hk; decide)

/-- C8: an updater with no net additions and no net revocations exports
nothing (`none`) instead of an entry. -/
theorem updater_no_changes_exports_nothing :
    ∀ (u : Updater) (prov : CryptoProvider),
      u.added_management = [] → u.added_did = [] → u.added_service = [] →
      u.revoked_management = [] → u.revoked_did = [] → u.revoked_service = [] →
      u.export_entry_data prov = .ok none := by
  intro u prov h1 h2 h3 h4 h5 h6
  simp [Updater.export_entry_data, Updater.hasChangesB, h1, h2, h3, h4, h5, h6]

/-- Witness for C8 at a concrete fresh updater. -/
theorem updater_no_changes_exports_nothing_witness :
    (freshUpdater gmailDoc).export_entry_data idealProvider = .ok none :=
  updater_no_changes_exports_nothing (freshUpdater gmailDoc) idealProvider
    rfl rfl rfl rfl rfl rfl

/-! ## C3: the single alias namespace -/

/-- An add operation on a document, carrying the element to add (with its
generated key material where applicable): the three builder calls of
spec §4.4. -/
inductive DocOp where
  | addMgmt : ManagementKey → DocOp
  | addDid : DIDKey → DocOp
  | addSvc : Service → DocOp
deriving DecidableEq, Repr

/-- The alias an add operation tries to reserve. -/
def DocOp.alias_ : DocOp → String
  | .addMgmt k => k.alias_
  | .addDid k => k.alias_
  | .addSvc s => s.alias_

/-- Whether the element of an add operation passes the static validation
checks that precede the alias-in-use check (spec §4.2 order of checks). -/
def DocOp.wellFormedB : DocOp → Bool
  | .addMgmt k => valid_alias k.alias_ && valid_did k.controller
  | .addDid k => valid_alias k.alias_ && valid_did k.controller &&
      (!k.purpose.isEmpty && decide k.purpose.Nodup)
  | .addSvc s => valid_alias s.alias_ && !s.service_type.data.isEmpty && valid_url s.endpoint

/-- Dispatch an add operation to the corresponding builder call. -/
def applyOp (d : Document) : DocOp → Except DidError Document
  | .addMgmt k => d.add_management_key k
  | .addDid k => d.add_did_key k
  | .addSvc s => d.add_service s

/-- Run a sequence of add operations, stopping at the first failure. -/
def applyOps (d : Document) : List DocOp → Except DidError Document
  | [] => .ok d
  | op :: ops =>
      match applyOp d op with
      | .error e => .error e
      | .ok d₂ => applyOps d₂ ops

theorem applyOp_preserves_nodup {d d₂ : Document} {op : DocOp}
    (h : d.allAliases.Nodup) (he : applyOp d op = .ok d₂) :
    d₂.allAliases.Nodup := by
  cases op with
  | addMgmt k =>
      simp only [applyOp, Document.add_management_key] at he
      split at he
      · exact absurd he (by simp)
      split at he
      · exact absurd he (by simp)
      split at he
      · exact absurd he (by simp)
      next hnc =>
        cases he
        have hnm : k.alias_ ∉ d.allAliases := by
          intro hm
          exact hnc (by simpa using hm)
        have hperm :
            (Document.allAliases { d with management_keys := d.management_keys ++ [k] }).Perm
              (k.alias_ :: d.allAliases) := by
          simp only [Document.allAliases, List.map_append, List.map_cons, List.map_nil,
            List.append_assoc, List.singleton_append]
          exact List.perm_middle
        rw [hperm.nodup_iff, List.nodup_cons]
        exact ⟨hnm, h⟩
  | addDid k =>
      simp only [applyOp, Document.add_did_key] at he
      split at he
      · exact absurd he (by simp)
      split at he
      · exact absurd he (by simp)
      split at he
      · exact absurd he (by simp)
      split at he
      · exact absurd he (by simp)
      next hnc =>
        cases he
        have hnm : k.alias_ ∉ d.allAliases := by
          intro hm
          exact hnc (by simpa using hm)
        have hperm :
            (Document.allAliases { d with did_keys := d.did_keys ++ [k] }).Perm
              (k.alias_ :: d.allAliases) := by
          simp only [Document.allAliases, List.map_append, List.map_cons, List.map_nil,
            List.append_assoc, List.singleton_append]
          exact (List.Perm.append_left _ List.perm_middle).trans List.perm_middle
        rw [hperm.nodup_iff, List.nodup_cons]
        exact ⟨hnm, h⟩
  | addSvc s =>
      simp only [applyOp, Document.add_service] at he
      split at he
      · exact absurd he (by simp)
      split at he
      · exact absurd he (by simp)
      split at he
      · exact absurd he (by simp)
      split at he
      · exact absurd he (by simp)
      next hnc =>
        cases he
        have hnm : s.alias_ ∉ d.allAliases := by
          intro hm
          exact hnc (by simpa using hm)
        have hperm :
            (Document.allAliases { d with services := d.services ++ [s] }).Perm
              (s.alias_ :: d.allAliases) := by
          simp only [Document.allAliases, List.map_append, List.map_cons, List.map_nil,
            List.append_assoc, List.singleton_append]
          exact (List.Perm.append_left _
              (List.Perm.append_left _ (List.perm_append_singleton _ _))).trans
            ((List.Perm.append_left _ List.perm_middle).trans List.perm_middle)
        rw [hperm.nodup_iff, List.nodup_cons]
        exact ⟨hnm, h⟩

theorem applyOps_preserves_nodup :
    ∀ (ops : List DocOp) (d d₂ : Document), d.allAliases.Nodup →
      applyOps d ops = .ok d₂ → d₂.allAliases.Nodup := by
  intro ops
  induction ops with
  | nil =>
      intro d d₂ h he
      simp only [applyOps] at he
      cases he
      exact h
  | cons op ops ih =>
      intro d d₂ h he
      simp only [applyOps] at he
      cases happ : applyOp d op with
      | error e => rw [happ] at he; exact absurd he (by simp)
      | ok d₁ =>
          rw [happ] at he
          exact ih d₁ d₂ (applyOp_preserves_nodup h happ) he

/-- C3: aliases form a single namespace across management keys, DID keys
and services: an add whose (otherwise valid) element carries an alias
already belonging to any element of any kind fails *alias-in-use* (and, the
operations being pure, yields no changed document), and every document
reached from a fresh document by successful adds has pairwise-distinct
aliases. -/
theorem alias_single_namespace :
    (∀ (d : Document) (op : DocOp), DocOp.wellFormedB op = true →
      DocOp.alias_ op ∈ d.allAliases → applyOp d op = .error .aliasInUse) ∧
    (∀ (nonce : String) (ops : List DocOp) (d : Document),
      applyOps (emptyDocument nonce) ops = .ok d → d.allAliases.Nodup) := by
  constructor
  · intro d op hwf hmem
    cases op with
    | addMgmt k =>
        simp only [DocOp.wellFormedB, Bool.and_eq_true] at hwf
        obtain ⟨h1, h2⟩ := hwf
        simp only [DocOp.alias_] at hmem
        simp [applyOp, Document.add_management_key, h1, h2, hmem]
    | addDid k =>
        simp only [DocOp.wellFormedB, Bool.and_eq_true] at hwf
        obtain ⟨⟨h1, h2⟩, h3, h4⟩ := hwf
        simp only [DocOp.alias_] at hmem
        simp [applyOp, Document.add_did_key, h1, h2, h3, h4, hmem]
        simpa using h3
    | addSvc s =>
        simp only [DocOp.wellFormedB, Bool.and_eq_true] at hwf
        obtain ⟨⟨h1, h2⟩, h3⟩ := hwf
        simp only [DocOp.alias_] at hmem
        simp [applyOp, Document.add_service, h1, h2, h3, hmem]
        simpa using h2
  · intro nonce ops d he
    exact applyOps_preserves_nodup ops (emptyDocument nonce) d (by simp [emptyDocument, Document.allAliases]) he

/-- Witness for C3: adding a service whose alias is already a service
alias of the document fails *alias-in-use*; a two-step build has distinct
aliases. -/
theorem alias_single_namespace_witness :
    applyOp gmailDoc (.addSvc (sampleService "gmail-service" none)) = .error .aliasInUse ∧
      ∀ d : Document, applyOps (emptyDocument sampleNonce)
        [.addMgmt (sampleMgmtKey "man-key1" 0), .addSvc (sampleService "gmail-service" none)] =
          .ok d → d.allAliases.Nodup :=
  ⟨alias_single_namespace.1 gmailDoc (.addSvc (sampleService "gmail-service" none))
      (by decide) (by decide),
    fun d => alias_single_namespace.2 sampleNonce _ d⟩

/-! ## Serialized length (mirror of `Json.ser`, with proven agreement) -/

mutual

/-- The byte length of `Json.ser`, computed without materialising the
string (agreement is proved in `Json.ser_length`). -/
def Json.serLen : Json → Nat
  | .str s => 1 + (jsonEscape s).length + 1
  | .nat n => (Nat.repr n).length
  | .arr xs => 1 + Json.serListLen xs + 1
  | .obj kvs => 1 + Json.serObjLen kvs + 1

/-- Length of `Json.serList`. -/
def Json.serListLen : List Json → Nat
  | [] => 0
  | [x] => Json.serLen x
  | x :: y :: rest => Json.serLen x + 1 + Json.serListLen (y :: rest)

/-- Length of `Json.serObj`. -/
def Json.serObjLen : List (String × Json) → Nat
  | [] => 0
  | [(k, v)] => 1 + (jsonEscape k).length + 2 + Json.serLen v
  | (k, v) :: x :: rest =>
      1 + (jsonEscape k).length + 2 + Json.serLen v + 1 + Json.serObjLen (x :: rest)

end

mutual

theorem Json.ser_length (j : Json) : (Json.ser j).length = Json.serLen j := by
  cases j with
  | str s =>
      simp [Json.ser, Json.serLen, String.length_append,
        show ("\"" : String).length = 1 from rfl]
  | nat n => rfl
  | arr xs =>
      simp [Json.ser, Json.serLen, String.length_append,
        show ("[" : String).length = 1 from rfl,
        show ("]" : String).length = 1 from rfl, Json.serList_length xs]
  | obj kvs =>
      simp [Json.ser, Json.serLen, String.length_append,
        show ("\x7b" : String).length = 1 from rfl,
        show ("\x7d" : String).length = 1 from rfl, Json.serObj_length kvs]

theorem Json.serList_length (xs : List Json) :
    (Json.serList xs).length = Json.serListLen xs := by
  match xs with
  | [] => rfl
  | [x] => simp [Json.serList, Json.serListLen, Json.ser_length x]
  | x :: y :: rest =>
      simp [Json.serList, Json.serListLen, String.length_append, Json.ser_length x,
        show ("," : String).length = 1 from rfl, Json.serList_length (y :: rest)]

theorem Json.serObj_length (kvs : List (String × Json)) :
    (Json.serObj kvs).length = Json.serObjLen kvs := by
  match kvs with
  | [] => rfl
  | [(k, v)] =>
      simp [Json.serObj, Json.serObjLen, String.length_append, Json.ser_length v,
        show ("\"" : String).length = 1 from rfl,
        show ("\":" : String).length = 2 from rfl]
  | (k, v) :: x :: rest =>
      simp [Json.serObj, Json.serObjLen, String.length_append, Json.ser_length v,
        show ("\"" : String).length = 1 from rfl,
        show ("\":" : String).length = 2 from rfl,
        show ("," : String).length = 1 from rfl, Json.serObj_length (x :: rest)]

end

/-! ## C4: the minimal create entry -/

/-- C4: a document with exactly one management key at priority 0 (and no
DID keys or services) exports ext-ids `["DIDManagement", "1.0.0",
nonce-hex]` in that order and a content JSON object with exactly the keys
`didMethodVersion` and `managementKey` (a one-element array), no `didKey`
and no `service` key, provided the entry is within the size cap. -/
theorem minimal_create_entry :
    ∀ (d : Document) (k : ManagementKey),
      d.management_keys = [k] → k.priority = 0 → d.did_keys = [] → d.services = [] →
      entrySize [EntryType.Create.value, ENTRY_SCHEMA_VERSION, d.nonce]
          (Json.ser d.createContentJson) ≤ ENTRY_SIZE_CAP →
      d.export_entry_data = .ok
        { ext_ids := ["DIDManagement", "1.0.0", d.nonce],
          content := Json.ser (Json.obj [("didMethodVersion", Json.str "0.2.0"),
            ("managementKey", Json.arr [mgmtKeyToJson d.id k])]) } := by
  intro d k h1 h2 h3 h4 hsize
  have hcontent : d.createContentJson = Json.obj [("didMethodVersion", Json.str "0.2.0"),
      ("managementKey", Json.arr [mgmtKeyToJson d.id k])] := by
    simp [Document.createContentJson, h1, h3, h4, DID_METHOD_SPEC_VERSION]
  rw [hcontent] at hsize
  have hnlt := Nat.not_lt.mpr hsize
  simp [Document.export_entry_data, h1, h2, hcontent, hnlt, EntryType.value,
    ENTRY_SCHEMA_VERSION]
  exact hsize

/-- The one-key document of the minimal-create scenario. -/
def minimalDoc : Document :=
  { nonce := sampleNonce, management_keys := [sampleMgmtKey "my-management-key" 0],
    did_keys := [], services := [] }

set_option maxRecDepth 100000 in
/-- Witness for C4 at `minimalDoc`. -/
theorem minimal_create_entry_witness :
    minimalDoc.export_entry_data = .ok
      { ext_ids := ["DIDManagement", "1.0.0", minimalDoc.nonce],
        content := Json.ser (Json.obj [("didMethodVersion", Json.str "0.2.0"),
          ("managementKey",
            Json.arr [mgmtKeyToJson minimalDoc.id (sampleMgmtKey "my-management-key" 0)])]) } :=
  minimal_create_entry minimalDoc (sampleMgmtKey "my-management-key" 0) rfl rfl rfl rfl
    (by simp only [entrySize, Json.ser_length]; decide)

/-! ## C9: the entry size guard -/

theorem create_export_too_large (d : Document)
    (hk : ∃ k ∈ d.management_keys, k.priority = 0)
    (hlt : ENTRY_SIZE_CAP < entrySize [EntryType.Create.value, ENTRY_SCHEMA_VERSION, d.nonce]
      (Json.ser d.createContentJson)) :
    d.export_entry_data = .error .entryTooLarge := by
  obtain ⟨k, hkmem, hk0⟩ := hk
  have hne : d.management_keys.isEmpty = false := by
    cases hm : d.management_keys with
    | nil => rw [hm] at hkmem; exact absurd hkmem (List.not_mem_nil k)
    | cons a l => rfl
  have hall : d.management_keys.all (fun j => j.priority != 0) = false := by
    cases hb : d.management_keys.all (fun j => j.priority != 0) with
    | false => rfl
    | true =>
        rw [List.all_eq_true] at hb
        have := hb k hkmem
        simp [hk0] at this
  simp [Document.export_entry_data, hne, hall, hlt]

/-- The 35-management-key document of the over-cap scenario: aliases
`management-key-0` through `management-key-34`, all at priority 0. -/
def doc35 : Document :=
  { nonce := sampleNonce,
    management_keys := (List.range 35).map
      (fun i => sampleMgmtKey ("management-key-" ++ Nat.repr i) 0),
    did_keys := [], services := [] }

set_option maxRecDepth 200000 in
/-- C9: the serialized entry must fit in 10240 bytes: every successful
create or update export satisfies the cap, a create whose serialized form
exceeds the cap fails *entry-too-large*, and in particular the
35-management-key document `doc35` fails *entry-too-large*. -/
theorem entry_size_guard :
    (∀ d : Document, (∃ k ∈ d.management_keys, k.priority = 0) →
      ENTRY_SIZE_CAP < entrySize [EntryType.Create.value, ENTRY_SCHEMA_VERSION, d.nonce]
        (Json.ser d.createContentJson) →
      d.export_entry_data = .error .entryTooLarge) ∧
    (∀ (d : Document) (e : Entry), d.export_entry_data = .ok e →
      entrySize e.ext_ids e.content ≤ ENTRY_SIZE_CAP) ∧
    (∀ (u : Updater) (prov : CryptoProvider) (e : Entry),
      u.export_entry_data prov = .ok (some e) →
      entrySize e.ext_ids e.content ≤ ENTRY_SIZE_CAP) ∧
    doc35.export_entry_data = .error .entryTooLarge := by
  refine ⟨create_export_too_large, fun d e he => ?_, fun u prov e he => ?_, ?_⟩
  · rw [Document.export_entry_data] at he
    dsimp only at he
    split at he
    · exact absurd he (by simp)
    split at he
    · exact absurd he (by simp)
    split at he
    · exact absurd he (by simp)
    next hsz =>
      cases he
      exact Nat.not_lt.mp hsz
  · rw [Updater.export_entry_data] at he
    dsimp only at he
    split at he
    · simp at he
    split at he
    · exact absurd he (by simp)
    next k hsel =>
      split at he
      · exact absurd he (by simp)
      split at he
      · exact absurd he (by simp)
      split at he
      · exact absurd he (by simp)
      next sk hsk =>
        split at he
        · exact absurd he (by simp)
        next hsz =>
          cases he
          exact Nat.not_lt.mp hsz
  · refine create_export_too_large doc35 ⟨sampleMgmtKey "management-key-0" 0, ?_, rfl⟩ ?_
    · simp [doc35]
      exact ⟨0, by norm_num, rfl⟩
    · simp only [entrySize, Json.ser_length]
      decide

set_option maxRecDepth 200000 in
/-- Witness for C9: the over-cap rule applied at `doc35`. -/
theorem entry_size_guard_witness :
    doc35.export_entry_data = .error .entryTooLarge :=
  entry_size_guard.1 doc35
    ⟨sampleMgmtKey "management-key-0" 0, by simp [doc35]; exact ⟨0, by norm_num, rfl⟩, rfl⟩
    (by simp only [entrySize, Json.ser_length]; decide)

/-! ## C1: signer selection for update entries -/

/-- The declarative form of the authorization constraints of spec §4.5: a
management key satisfies the constraints induced by the changes iff its
priority is at most the priority of each added or revoked management key
and at most the priority requirement (when set) of each revoked DID key or
service. -/
def SatisfiesConstraints (u : Updater) (k : ManagementKey) : Prop :=
  (∀ a ∈ u.added_management, k.priority ≤ a.priority) ∧
    (∀ r ∈ u.revoked_management, k.priority ≤ r.2) ∧
    (∀ r ∈ u.revoked_did, ∀ q : Nat, r.2 = some q → k.priority ≤ q) ∧
    (∀ r ∈ u.revoked_service, ∀ q : Nat, r.2 = some q → k.priority ≤ q)

theorem minList_eq_none {L : List Nat} : minList L = none ↔ L = [] := by
  cases L with
  | nil => simp [minList]
  | cons a rest =>
      simp only [minList]
      cases minList rest <;> simp

theorem withinThr_minList (L : List Nat) (p : Nat) :
    withinThr (minList L) p = true ↔ ∀ x ∈ L, p ≤ x := by
  induction L with
  | nil => simp [minList, withinThr]
  | cons a rest ih =>
      rw [minList]
      cases hr : minList rest with
      | none =>
          have : rest = [] := minList_eq_none.mp hr
          subst this
          simp [withinThr]
      | some b =>
          rw [hr] at ih
          simp only [withinThr, decide_eq_true_eq] at ih ⊢
          simp only [List.forall_mem_cons, Nat.le_min]
          rw [← ih]

theorem satisfies_iff_withinThr (u : Updater) (k : ManagementKey) :
    SatisfiesConstraints u k ↔
      withinThr (minList u.constraintValues) k.priority = true := by
  rw [withinThr_minList]
  simp only [SatisfiesConstraints, Updater.constraintValues, List.forall_mem_append,
    List.forall_mem_map, List.mem_filterMap]
  constructor
  · rintro ⟨h1, h2, h3, h4⟩
    refine ⟨⟨⟨h1, h2⟩, ?_⟩, ?_⟩
    · rintro x ⟨r, hr, hq⟩
      exact h3 r hr x hq
    · rintro x ⟨r, hr, hq⟩
      exact h4 r hr x hq
  · rintro ⟨⟨⟨h1, h2⟩, h3⟩, h4⟩
    exact ⟨h1, h2, fun r hr q hq => h3 q ⟨r, hr, hq⟩, fun r hr q hq => h4 q ⟨r, hr, hq⟩⟩

theorem selectSigner_eq_none {thr : Option Nat} :
    ∀ {keys : List ManagementKey}, selectSigner thr keys = none →
      ∀ k ∈ keys, withinThr thr k.priority = false := by
  intro keys
  induction keys with
  | nil =>
      intro _ k hk
      exact absurd hk (List.not_mem_nil k)
  | cons k0 ks ih =>
      intro hsel k hk
      rw [selectSigner] at hsel
      cases hr : selectSigner thr ks with
      | none =>
          rw [hr] at hsel
          rcases List.mem_cons.mp hk with h | h
          · subst h
            cases hw : withinThr thr k.priority with
            | false => rfl
            | true => rw [pickBetter, hw] at hsel; simp at hsel
          · exact ih hr k h
      | some b =>
          rw [hr, pickBetter] at hsel
          split at hsel
          · split at hsel <;> simp at hsel
          · simp at hsel

theorem selectSigner_eq_some {thr : Option Nat} :
    ∀ {keys : List ManagementKey} {k : ManagementKey}, selectSigner thr keys = some k →
      ∃ pre post, keys = pre ++ k :: post ∧ withinThr thr k.priority = true ∧
        (∀ j ∈ keys, withinThr thr j.priority = true → k.priority ≤ j.priority) ∧
        (∀ j ∈ pre, withinThr thr j.priority = true → k.priority < j.priority) := by
  intro keys
  induction keys with
  | nil =>
      intro k h
      exact absurd h (by simp [selectSigner])
  | cons k0 ks ih =>
      intro k hsel
      rw [selectSigner] at hsel
      cases hr : selectSigner thr ks with
      | none =>
          rw [hr, pickBetter] at hsel
          cases hw : withinThr thr k0.priority with
          | false => rw [hw] at hsel; simp at hsel
          | true =>
              rw [hw] at hsel
              simp only [if_true] at hsel
              cases hsel
              refine ⟨[], ks, rfl, hw, ?_, by simp⟩
              intro j hj hwj
              rcases List.mem_cons.mp hj with h | h
              · subst h; exact Nat.le_refl _
              · rw [selectSigner_eq_none hr j h] at hwj
                exact absurd hwj (by simp)
      | some b =>
          obtain ⟨pre, post, hsplit, hwb, hminb, hpreb⟩ := ih hr
          rw [hr, pickBetter] at hsel
          cases hw : withinThr thr k0.priority with
          | false =>
              rw [hw] at hsel
              simp only [Bool.false_eq_true, if_false] at hsel
              cases hsel
              refine ⟨k0 :: pre, post, by rw [hsplit, List.cons_append], hwb, ?_, ?_⟩
              · intro j hj hwj
                rcases List.mem_cons.mp hj with h | h
                · subst h; rw [hw] at hwj; exact absurd hwj (by simp)
                · exact hminb j h hwj
              · intro j hj hwj
                rcases List.mem_cons.mp hj with h | h
                · subst h; rw [hw] at hwj; exact absurd hwj (by simp)
                · exact hpreb j h hwj
          | true =>
              rw [hw] at hsel
              simp only [if_true] at hsel
              by_cases hlt : b.priority < k0.priority
              · rw [if_pos hlt] at hsel
                cases hsel
                refine ⟨k0 :: pre, post, by rw [hsplit, List.cons_append], hwb, ?_, ?_⟩
                · intro j hj hwj
                  rcases List.mem_cons.mp hj with h | h
                  · subst h; exact Nat.le_of_lt hlt
                  · exact hminb j h hwj
                · intro j hj hwj
                  rcases List.mem_cons.mp hj with h | h
                  · subst h; exact hlt
                  · exact hpreb j h hwj
              · rw [if_neg hlt] at hsel
                cases hsel
                refine ⟨[], ks, rfl, hw, ?_, by simp⟩
                intro j hj hwj
                rcases List.mem_cons.mp hj with h | h
                · subst h; exact Nat.le_refl _
                · exact (Nat.le_of_not_lt hlt).trans (hminb j h hwj)

/-- C1: for every updater whose export succeeds with an entry, the signer
referenced in `ext_ids[2]` is the management key of the original document
with the smallest priority among those satisfying the constraints induced
by the changes, ties broken by position (no earlier satisfying key has a
priority at most as small); and if the updater has changes and no original
management key satisfies the constraints, export fails
*insufficient-authority*. -/
theorem updater_signer_selection :
    (∀ (u : Updater) (prov : CryptoProvider) (e : Entry),
      u.export_entry_data prov = .ok (some e) →
      ∃ pre post k,
        u.existing_management = pre ++ k :: post ∧
        SatisfiesConstraints u k ∧
        (∀ j ∈ u.existing_management, SatisfiesConstraints u j → k.priority ≤ j.priority) ∧
        (∀ j ∈ pre, SatisfiesConstraints u j → k.priority < j.priority) ∧
        e.ext_ids.get? 2 = some (u.doc.id ++ "#" ++ k.alias_)) ∧
    (∀ (u : Updater) (prov : CryptoProvider),
      u.hasChangesB = true →
      (∀ j ∈ u.existing_management, ¬ SatisfiesConstraints u j) →
      u.export_entry_data prov = .error .insufficientAuthority) := by
  constructor
  · intro u prov e he
    rw [Updater.export_entry_data] at he
    dsimp only at he
    split at he
    · simp at he
    split at he
    · exact absurd he (by simp)
    next k hsel =>
      split at he
      · exact absurd he (by simp)
      split at he
      · exact absurd he (by simp)
      split at he
      · exact absurd he (by simp)
      next sk hsk =>
        split at he
        · exact absurd he (by simp)
        next hsz =>
          obtain ⟨pre, post, hsplit, hwb, hmin, hpre⟩ := selectSigner_eq_some hsel
          refine ⟨pre, post, k, hsplit, (satisfies_iff_withinThr u k).mpr hwb, ?_, ?_, ?_⟩
          · intro j hj hsj
            exact hmin j hj ((satisfies_iff_withinThr u j).mp hsj)
          · intro j hj hsj
            exact hpre j hj ((satisfies_iff_withinThr u j).mp hsj)
          · cases he
            rfl
  · intro u prov hch hno
    have hsel : selectSigner (minList u.constraintValues) u.existing_management = none := by
      cases hs : selectSigner (minList u.constraintValues) u.existing_management with
      | none => rfl
      | some k =>
          obtain ⟨pre, post, hsplit, hwb, -, -⟩ := selectSigner_eq_some hs
          have hkmem : k ∈ u.existing_management := by
            rw [hsplit]
            exact List.mem_append_right pre (List.mem_cons_self k post)
          exact absurd ((satisfies_iff_withinThr u k).mpr hwb) (hno k hkmem)
    simp [Updater.export_entry_data, hch, hsel]

/-- An updater whose only change is the revocation of a service with
priority requirement 0, while the sole original management key has
priority 1: no key can authorize it. -/
def noAuthUpdater : Updater :=
  { doc := { nonce := sampleNonce, management_keys := [sampleMgmtKey "man-key1" 1],
             did_keys := [], services := [] },
    existing_management := [sampleMgmtKey "man-key1" 1],
    added_management := [], added_did := [], added_service := [],
    revoked_management := [], revoked_did := [],
    revoked_service := [("banking-credential-service", some 0)] }

/-- Witness for C1: the concrete updater above fails
*insufficient-authority*. -/
theorem updater_signer_selection_witness :
    noAuthUpdater.export_entry_data idealProvider = .error .insufficientAuthority :=
  updater_signer_selection.2 noAuthUpdater idealProvider rfl
    (by
      intro j hj hsat
      simp only [noAuthUpdater, List.mem_singleton] at hj
      subst hj
      have h0 := hsat.2.2.2 ("banking-credential-service", some 0)
        (by simp [noAuthUpdater]) 0 rfl
      exact absurd h0 (by decide))

end FactomDid
